import Mathlib

/-! # Portfolio page script (`src/js/script.js`)

A shallow embedding of the ThemeModule, ModalModule, FilterModule and
FormModule closures of `src/js/script.js`, and the properties of them
that the specification states.

Conventions of the embedding.

* A DOM attribute is an `Option String`: `none` is what `getAttribute`
  reports as `null`, `removeAttribute` writes `none`.
* A DOM element that `querySelector` may fail to find is an `Option`.
* Elements of a `querySelectorAll` list are identified by their position
  in the list (distinct DOM nodes, compared with `===` in the source).
* A `try { … } catch` block is a computation in `Except JsError`.
* `String.prototype.toLowerCase` is a parameter of the definitions that
  call it; every theorem holds for any such function.
* The nodes below the modal element are a tree; `querySelector` gives the
  position of the first match in tree order, and the HTML fragment parser
  behind an `innerHTML` assignment is a parameter of the definitions.
-/

namespace Portfolio

/-! ## JavaScript primitives used by the script -/

/-- The value of `a || b` where `a` is a string: the empty string is falsy. -/
def jsOr (a b : String) : String :=
  if a = "" then b else a

/-- The value of `a || b` where `a` is a string or `null`. -/
def jsOrNull (a : Option String) (b : String) : String :=
  match a with
  | some s => jsOr s b
  | none => b

/-- Truthiness of a value that is a string or `null`. -/
def truthy (a : Option String) : Bool :=
  match a with
  | some s => s != ""
  | none => false

/-- Code points matched by `\s` in a JavaScript regular expression
(ECMAScript WhiteSpace and LineTerminator). -/
def isSpace (c : Char) : Bool :=
  let n := c.toNat
  n == 0x09 || n == 0x0A || n == 0x0B || n == 0x0C || n == 0x0D || n == 0x20 ||
  n == 0xA0 || n == 0x1680 || (0x2000 ≤ n && n ≤ 0x200A) || n == 0x2028 ||
  n == 0x2029 || n == 0x202F || n == 0x205F || n == 0x3000 || n == 0xFEFF

/-- Worker of `splitWs`: `prev` records that the character just read was
whitespace, so that a run of whitespace is one separator. -/
def splitWsGo : Bool → List Char → List (List Char)
  | _, [] => [[]]
  | prev, c :: cs =>
    if isSpace c then
      (if prev then splitWsGo true cs else [] :: splitWsGo true cs)
    else
      List.modifyHead (List.cons c) (splitWsGo false cs)

/-- The pieces of `s.split(/\s+/)`: the text between maximal runs of
whitespace, with an empty piece before a leading and after a trailing run. -/
def splitWs (s : List Char) : List (List Char) :=
  splitWsGo false s

/-- Exceptions that the modelled code can raise. -/
inductive JsError where
  | typeError
  | parseError
  | networkError
  deriving DecidableEq

/-- Array indexing `xs[k]` with a JavaScript number `k`, reporting the
position found: `none` stands for `undefined`. -/
def jsIndex {α : Type} (xs : List α) (k : Int) : Option Nat :=
  if 0 ≤ k ∧ k.toNat < xs.length then some k.toNat else none

/-! ## FilterModule -/

namespace FilterModule

/-- A `.projects__technology` filter button. -/
structure Button where
  dataFilter : Option String
  classList : List String
  ariaPressed : Option String
  deriving DecidableEq

/-- A `.projects__item` project card, as far as the filter touches it. -/
structure Item where
  dataTechnology : Option String
  display : String
  ariaHidden : Option String
  deriving DecidableEq

def ACTIVE_CLASS : String := "is-active"

/-- The call `classList.add(cls)`. -/
def classAdd (cls : String) (l : List String) : List String :=
  if cls ∈ l then l else l ++ [cls]

/-- The call `classList.remove(cls)`. -/
def classRemove (cls : String) (l : List String) : List String :=
  l.filter (fun c => c != cls)

/-- The function `getTags(el)`. -/
def getTags (toLowerCase : String → String) (el : Item) : List String :=
  let raw := jsOrNull el.dataTechnology ""
  ((splitWs raw.data).filter (fun t => t != [])).map (fun t => toLowerCase (String.mk t))

def showItem (el : Item) : Item :=
  { el with display := "", ariaHidden := none }

def hideItem (el : Item) : Item :=
  { el with display := "none", ariaHidden := some "true" }

/-- The function `applyFilter(filter)` acting on the `items` of the closure. -/
def applyFilter (toLowerCase : String → String) (filter : String) (items : List Item) :
    List Item :=
  let normFilter := toLowerCase (jsOr filter "")
  items.map (fun item =>
    if normFilter = "" ∨ normFilter = "*" then showItem item
    else
      let tags := getTags toLowerCase item
      if normFilter ∈ tags then showItem item else hideItem item)

/-- The function `setActiveButton(btn)` acting on the `filterButtons` of the closure;
`btn` is the position of the button passed. -/
def setActiveButton (btn : Nat) (filterButtons : List Button) : List Button :=
  filterButtons.mapIdx (fun i b =>
    if i = btn then
      { b with classList := classAdd ACTIVE_CLASS b.classList, ariaPressed := some "true" }
    else
      { b with classList := classRemove ACTIVE_CLASS b.classList, ariaPressed := some "false" })

/-- The DOM state owned by the module. -/
structure FilterState where
  filterButtons : List Button
  items : List Item
  deriving DecidableEq

/-- Position of `defaultBtn` in `bind`: the first button whose
`data-filter` is the wildcard, else the first button. -/
def defaultIndex (filterButtons : List Button) : Nat :=
  (filterButtons.findIdx? (fun b => jsOrNull b.dataFilter "" == "*")).getD 0

/-- The click listener that `bind` attaches to the button at position `idx`. -/
def click (toLowerCase : String → String) (idx : Nat) (st : FilterState) : FilterState :=
  match st.filterButtons[idx]? with
  | none => st
  | some btn =>
    let filter := jsOrNull btn.dataFilter "*"
    let items := applyFilter toLowerCase filter st.items
    { filterButtons := setActiveButton idx st.filterButtons, items := items }

/-- Module initialisation: the guard on empty lists, then the default
button of `bind`. `none` is the inert module (`return null`). -/
def init (toLowerCase : String → String) (filterButtons : List Button) (items : List Item) :
    Option FilterState :=
  if filterButtons.length = 0 ∨ items.length = 0 then none
  else
    let d := defaultIndex filterButtons
    match filterButtons[d]? with
    | none => some { filterButtons := filterButtons, items := items }
    | some defaultBtn =>
      let bs := setActiveButton d filterButtons
      some { filterButtons := bs,
             items := applyFilter toLowerCase (jsOrNull defaultBtn.dataFilter "*") items }

/-- The state after a sequence of clicks, given by button positions. -/
def clicks (toLowerCase : String → String) (cs : List Nat) (st : FilterState) : FilterState :=
  cs.foldl (fun s c => click toLowerCase c s) st

/-- Index expression `(idx + 1) % filterButtons.length`. -/
def nextIndex (n : Nat) (idx : Nat) : Int :=
  Int.tmod ((idx : Int) + 1) (n : Int)

/-- Index expression `(idx - 1 + filterButtons.length) % filterButtons.length`. -/
def prevIndex (n : Nat) (idx : Nat) : Int :=
  Int.tmod ((idx : Int) - 1 + (n : Int)) (n : Int)

/-- The keydown listener on the button at position `idx`; `focus` is the
position of the focused button. A missed lookup makes `.focus()` raise. -/
def keydown (filterButtons : List Button) (idx : Nat) (key : String) (focus : Option Nat) :
    Except JsError (Option Nat) :=
  if key = "ArrowRight" ∨ key = "ArrowDown" then
    match jsIndex filterButtons (nextIndex filterButtons.length idx) with
    | some next => .ok (some next)
    | none => .error .typeError
  else if key = "ArrowLeft" ∨ key = "ArrowUp" then
    match jsIndex filterButtons (prevIndex filterButtons.length idx) with
    | some prev => .ok (some prev)
    | none => .error .typeError
  else .ok focus

/-- A button carries the active state: the class and `aria-pressed="true"`. -/
def isActive (b : Button) : Prop :=
  ACTIVE_CLASS ∈ b.classList ∧ b.ariaPressed = some "true"

/-- The tag set in the words of the specification: the attribute split at
every whitespace character, empty tokens dropped, each token lowercased. -/
def tagSet (toLowerCase : String → String) (el : Item) : List String :=
  (((el.dataTechnology.getD "").data.splitOnP isSpace).filter (fun t => t != [])).map
    (fun t => toLowerCase (String.mk t))

end FilterModule

/-! ## ThemeModule -/

namespace ThemeModule

/-- The `.theme-icon` image inside the toggle. -/
structure Icon where
  src : String
  alt : String
  deriving DecidableEq

/-- What the module reads and writes: the `data-theme` attribute of the
root element, the toggle's `aria-pressed`, the icon if the toggle has one,
and the `theme` entry of `localStorage`. `storeWritable = false` is a store
whose `setItem` throws. -/
structure ThemeState where
  dataTheme : Option String
  ariaPressed : Option String
  icon : Option Icon
  stored : Option String
  storeWritable : Bool
  deriving DecidableEq

def ICONS_light : String := "images/icons/light-theme.svg"

def ICONS_dark : String := "images/icons/dark-theme.svg"

/-- The constant `initial`: `stored ? stored : (prefersLight ? 'light' : 'dark')`.
`matchMedia` is `none` when `window.matchMedia` is missing, else the
`matches` flag of the light-scheme query. -/
def initial (stored : Option String) (matchMedia : Option Bool) : String :=
  let prefersLight := matchMedia == some true
  match stored with
  | some s => if s != "" then s else (if prefersLight then "light" else "dark")
  | none => if prefersLight then "light" else "dark"

def applyTheme (theme : String) (st : ThemeState) : ThemeState :=
  if theme = "light" then
    { st with
      dataTheme := some "light"
      ariaPressed := some "true"
      icon := st.icon.map (fun _ => { src := ICONS_light, alt := "Светлая тема" }) }
  else
    { st with
      dataTheme := none
      ariaPressed := some "false"
      icon := st.icon.map (fun _ => { src := ICONS_dark, alt := "Тёмная тема" }) }

/-- The guarded write `try { localStorage.setItem(THEME_KEY, theme); } catch (e) {}`. -/
def setItem (theme : String) (st : ThemeState) : ThemeState :=
  if st.storeWritable then { st with stored := some theme } else st

def setTheme (theme : String) (st : ThemeState) : ThemeState :=
  setItem theme (applyTheme theme st)

/-- The click listener of the toggle. -/
def onClick (st : ThemeState) : ThemeState :=
  let isLight := st.dataTheme == some "light"
  setTheme (if isLight then "dark" else "light") st

/-- The `change` listener of the colour-scheme media query; `isMatch` is `e.matches`. -/
def onChange (isMatch : Bool) (st : ThemeState) : ThemeState :=
  let storedNow := st.stored
  if !truthy storedNow then setTheme (if isMatch then "light" else "dark") st else st

/-- Module load on a page in state `page`; `toggle` tells whether the
`#themeToggle` element exists. `none` is the inert module (`return null`). -/
def load (toggle : Bool) (matchMedia : Option Bool) (page : ThemeState) : Option ThemeState :=
  if !toggle then none
  else some (setTheme (initial page.stored matchMedia) page)

/-- What can happen after load. -/
inductive Event where
  | click
  | change (isMatch : Bool)
  deriving DecidableEq

def step (st : ThemeState) : Event → ThemeState
  | .click => onClick st
  | .change m => onChange m st

def run (st : ThemeState) (es : List Event) : ThemeState :=
  es.foldl step st

/-- The applied state: root marker, toggle `aria-pressed`, icon source and label. -/
def applied (st : ThemeState) : Option String × Option String × Option Icon :=
  (st.dataTheme, st.ariaPressed, st.icon)

/-- The initial theme in the words of the specification:
`persisted ?? (osPrefersLight ? light : dark)`. -/
def specInitial (persisted : Option String) (osPrefersLight : Bool) : String :=
  match persisted with
  | some s => s
  | none => if osPrefersLight then "light" else "dark"

/-- The applied state is the one `applyTheme` writes for the root marker it left. -/
def Consistent (st : ThemeState) : Prop :=
  (st.dataTheme = some "light" ∧ st.ariaPressed = some "true" ∧
    st.icon = st.icon.map (fun _ => { src := ICONS_light, alt := "Светлая тема" })) ∨
  (st.dataTheme = none ∧ st.ariaPressed = some "false" ∧
    st.icon = st.icon.map (fun _ => { src := ICONS_dark, alt := "Тёмная тема" }))

end ThemeModule

/-! ## ModalModule -/

namespace ModalModule

/-- A `.projects__item` card as `readContent` sees it: the `src` attribute
of its first `img` (outer `none`: no `img`), the inner markup of its title
and description elements (`none`: element missing), and `data-demo`. -/
structure Card where
  img : Option (Option String)
  title : Option String
  description : Option String
  dataDemo : Option String
  deriving DecidableEq

/-- The object returned by `readContent`; `imagesProject` is `null` when
the card's image has no `src` attribute. -/
structure Content where
  imagesProject : Option String
  titleProject : String
  descriptionProject : String
  demoProject : String
  deriving DecidableEq

/-- The `.modal__link` anchor. -/
structure Link where
  display : String
  href : Option String
  deriving DecidableEq

/-- A node below the modal element: a text node, or an element with its
tag name, its classes, its `src` attribute and its child nodes. -/
inductive Node where
  | text (data : String)
  | element (tag : String) (classes : List String) (src : Option String)
      (children : List Node)

/-- A position below the modal element: the child indices on the way down. -/
abbrev Pos := List Nat

namespace Node

/-- The `src` attribute of an element. -/
def src : Node → Option String
  | .text _ => none
  | .element _ _ s _ => s

/-- The child nodes of an element. -/
def children : Node → List Node
  | .text _ => []
  | .element _ _ _ cs => cs

/-- The tag name of an element. -/
def tag : Node → String
  | .text _ => ""
  | .element t _ _ _ => t

/-- The selector `img`. -/
def isImg : Node → Bool
  | .text _ => false
  | .element t _ _ _ => t == "img"

/-- The selector `.cls`. -/
def hasClass (cls : String) : Node → Bool
  | .text _ => false
  | .element _ cs _ _ => cs.contains cls

/-- The call `setAttribute('src', v)` on an element. -/
def setSrc (v : String) : Node → Node
  | .text d => .text d
  | .element t cs _ ch => .element t cs (some v) ch

/-- The call `removeAttribute('src')` on an element. -/
def removeSrc : Node → Node
  | .text d => .text d
  | .element t cs _ ch => .element t cs none ch

/-- The assignment `innerHTML = markup` on an element: its children become
what the HTML fragment parser `parse` makes of the markup in the context of
the element's tag. -/
def setInnerHTML (parse : String → String → List Node) (markup : String) : Node → Node
  | .text d => .text d
  | .element t cs s _ => .element t cs s (parse t markup)

/-- The element with its children rewritten by `f`. -/
def withChildren (f : List Node → List Node) : Node → Node
  | .text d => .text d
  | .element t cs s ch => .element t cs s (f ch)

end Node

mutual
/-- Positions of the descendants of a node in tree order, relative to it. -/
def descendants : Node → List Pos
  | .text _ => []
  | .element _ _ _ children => positionsFrom 0 children
/-- Positions of the nodes of a list of siblings and of their descendants in
tree order, the first sibling having index `i`. -/
def positionsFrom : Nat → List Node → List Pos
  | _, [] => []
  | i, n :: rest => ([i] :: (descendants n).map (List.cons i)) ++ positionsFrom (i + 1) rest
end

/-- The node at a position. -/
def nodeAt : List Node → Pos → Option Node
  | _, [] => none
  | doc, [i] => doc[i]?
  | doc, i :: j :: rest =>
    match doc[i]? with
    | some n => nodeAt n.children (j :: rest)
    | none => none

/-- A write to the node at a position: `f` applied to that node. -/
def modifyAt (f : Node → Node) : Pos → List Node → List Node
  | [], doc => doc
  | [i], doc =>
    match doc[i]? with
    | some n => doc.set i (f n)
    | none => doc
  | i :: j :: rest, doc =>
    match doc[i]? with
    | some n => doc.set i (n.withChildren (modifyAt f (j :: rest)))
    | none => doc

/-- The call `modalWindow.querySelector(sel)` on the nodes below the modal
element: the position of the first descendant in tree order that matches. -/
def querySelector (sel : Node → Bool) (doc : List Node) : Option Pos :=
  (positionsFrom 0 doc).find? (fun q =>
    match nodeAt doc q with
    | some n => sel n
    | none => false)

/-- Position `q` is `p` or lies below it. -/
def below : Pos → Pos → Bool
  | [], _ => true
  | _ :: _, [] => false
  | a :: p, b :: q => a == b && below p q

/-- The element at `q` has left the document when `innerHTML` of the
element found at `title` was assigned: it lay strictly below it. -/
def detached (title : Option Pos) (q : Pos) : Bool :=
  match title with
  | some pt => below pt q && pt != q
  | none => false

/-- The modal and the page parts the module writes: the nodes below the
modal element, the `display` of modal and overlay, `aria-hidden` of the
modal and the `overflow` of the body. The demo link is kept apart from the
nodes: the template's `.modal__link` is an element of its own, outside the
image, title and description elements. -/
structure Modal where
  content : List Node
  link : Option Link
  display : String
  overlayDisplay : String
  ariaHidden : Option String
  bodyOverflow : String

def readContent (element : Card) : Content :=
  let imagesProject := match element.img with
    | some src => src
    | none => some ""
  let titleProject := match element.title with
    | some html => html
    | none => ""
  let descriptionProject := match element.description with
    | some html => html
    | none => ""
  let demoProject := match element.dataDemo with
    | some d => d
    | none => ""
  { imagesProject, titleProject, descriptionProject, demoProject }

/-- Line 84, `if (img && content.imagesProject) img.setAttribute('src', …)`,
for the image found at `img`. -/
def writeSrc (img : Option Pos) (imagesProject : Option String) (doc : List Node) :
    List Node :=
  match img, imagesProject with
  | some pi, some src => if src != "" then modifyAt (Node.setSrc src) pi doc else doc
  | _, _ => doc

/-- Lines 85 and 86, `if (el) el.innerHTML = markup`, for the element found
at `el`. -/
def writeInnerHTML (parse : String → String → List Node) (el : Option Pos) (markup : String)
    (doc : List Node) : List Node :=
  match el with
  | some q => modifyAt (Node.setInnerHTML parse markup) q doc
  | none => doc

/-- The function `showModalContent(content)`: the four lookups of lines
79-82 first, then the writes in source order. The description found
strictly below the title has left the document when the title's `innerHTML`
was assigned, and the write to it leaves the document as it is. -/
def showModalContent (parse : String → String → List Node) (content : Content) (m : Modal) :
    Modal :=
  let img := querySelector Node.isImg m.content
  let title := querySelector (Node.hasClass "modal__title") m.content
  let desc := querySelector (Node.hasClass "modal__description") m.content
  let doc := writeSrc img content.imagesProject m.content
  let doc := writeInnerHTML parse title content.titleProject doc
  let doc := match desc with
    | some pd =>
      if detached title pd then doc
      else writeInnerHTML parse (some pd) content.descriptionProject doc
    | none => doc
  let link := m.link.map (fun l =>
    if content.demoProject != "" && content.demoProject != "" then
      { l with display := "inline-block", href := some content.demoProject }
    else
      { l with display := "none", href := none })
  { m with content := doc, link := link }

def openModal (parse : String → String → List Node) (content : Content) (m : Modal) : Modal :=
  let m := showModalContent parse content m
  { m with bodyOverflow := "hidden", display := "flex", overlayDisplay := "block",
           ariaHidden := some "false" }

def closeModal (m : Modal) : Modal :=
  let doc := match querySelector Node.isImg m.content with
    | some pi => modifyAt Node.removeSrc pi m.content
    | none => m.content
  { m with bodyOverflow := "", display := "none", overlayDisplay := "none",
           ariaHidden := some "true", content := doc }

/-- The click listener that `bindProjectClicks` attaches to a card. -/
def clickCard (parse : String → String → List Node) (p : Card) (m : Modal) : Modal :=
  let content := readContent p
  openModal parse content m

/-- Two positions, when both exist, are apart: neither is the other or below it. -/
def apart (a b : Option Pos) : Bool :=
  match a, b with
  | some p, some q => !below p q && !below q p
  | _, _ => true

/-- The image, the title element and the description element that the
lookups of `showModalContent` find are three elements none of which
contains another. -/
def separate (doc : List Node) : Bool :=
  apart (querySelector Node.isImg doc) (querySelector (Node.hasClass "modal__title") doc) &&
  apart (querySelector Node.isImg doc) (querySelector (Node.hasClass "modal__description") doc) &&
  apart (querySelector (Node.hasClass "modal__title") doc)
    (querySelector (Node.hasClass "modal__description") doc)

/-- The modal's image source: the `src` of the image that
`modalWindow.querySelector('img')` finds. -/
def imageSrc (doc : List Node) : Option String :=
  match querySelector Node.isImg doc with
  | some pi =>
    match nodeAt doc pi with
    | some n => n.src
    | none => none
  | none => none

/-- The modal image source in the words of the specification: the card's
image `src`, the empty string when the card has no image. -/
def specImageSrc (p : Card) : Option String :=
  match p.img with
  | some src => src
  | none => some ""

end ModalModule

/-! ## FormModule -/

/-- A parsed JSON value. A number is kept as the text that JavaScript's
number-to-string conversion gives for it, so `0` is the number zero. -/
inductive Json where
  | null
  | bool (b : Bool)
  | num (shown : String)
  | str (s : String)
  | arr (xs : List Json)
  | obj (kvs : List (String × Json))

namespace Json

/-- Truthiness of a parsed JSON value. -/
def isTruthy : Json → Bool
  | .null => false
  | .bool b => b
  | .num shown => shown != "0"
  | .str s => s != ""
  | .arr _ => true
  | .obj _ => true

/-- Own property `key` of a parsed object: with duplicate keys the last
one wins. `none` is `undefined`. -/
def field (key : String) (kvs : List (String × Json)) : Option Json :=
  (kvs.reverse.find? (fun kv => kv.1 == key)).map (fun kv => kv.2)

mutual
/-- String conversion of a nested array: the elements joined with `,`. -/
def joinComma : List Json → String
  | [] => ""
  | [x] => elemStr x
  | x :: y :: rest => elemStr x ++ "," ++ joinComma (y :: rest)
/-- String conversion of one array element inside `join`: `null` is
empty, any other value converts as JavaScript's `ToString` does. -/
def elemStr : Json → String
  | .null => ""
  | .bool b => if b then "true" else "false"
  | .num shown => shown
  | .str s => s
  | .arr xs => joinComma xs
  | .obj _ => "[object Object]"
end

end Json

namespace FormModule

/-- The status region `#formMsg` and the form fields: current values next
to the default values that `form.reset()` restores. -/
structure FormState where
  textContent : String
  color : String
  values : List String
  defaults : List String
  deriving DecidableEq

/-- The outcome of `fetch`: a rejected promise, or a response with its
`ok` flag and its body, `none` when the body is not JSON text. -/
inductive FetchResult where
  | rejected
  | response (ok : Bool) (body : Option Json)

/-- The expression `await fetch(url, …)`. -/
def fetch (r : FetchResult) : Except JsError (Bool × Option Json) :=
  match r with
  | .rejected => .error .networkError
  | .response ok body => .ok (ok, body)

/-- The expression `await res.json()`. -/
def resJson (body : Option Json) : Except JsError Json :=
  match body with
  | some j => .ok j
  | none => .error .parseError

/-- Property read `errData.errors` on a truthy value: only an object has it. -/
def getErrors (errData : Json) : Option Json :=
  match errData with
  | .obj kvs => Json.field "errors" kvs
  | _ => none

/-- Truthiness of `errors.length` for a truthy `errors`. -/
def lengthTruthy (errors : Json) : Bool :=
  match errors with
  | .arr xs => xs.length != 0
  | .str s => s.length != 0
  | .obj kvs => match Json.field "length" kvs with
    | some v => v.isTruthy
    | none => false
  | _ => false

/-- The callback `x => x.message`: reading a property of `null` raises,
a primitive or an array has no such property (`none` is `undefined`). -/
def getMessage (x : Json) : Except JsError (Option Json) :=
  match x with
  | .null => .error .typeError
  | .obj kvs => .ok (Json.field "message" kvs)
  | _ => .ok none

/-- The call `join(', ')` on the mapped array: `undefined` and
`null` elements are empty. -/
def joinMessages (ms : List (Option Json)) : String :=
  ", ".intercalate (ms.map (fun m =>
    match m with
    | none => ""
    | some v => Json.elemStr v))

/-- The call `errors.map(x => x.message)` on an array: the callback runs
on the elements in order and the first exception aborts the call. -/
def mapMessages : List Json → Except JsError (List (Option Json))
  | [] => .ok []
  | x :: xs =>
    match getMessage x with
    | .error e => .error e
    | .ok m =>
      match mapMessages xs with
      | .error e => .error e
      | .ok ms => .ok (m :: ms)

/-- The expression `errData.errors.map(x => x.message).join(', ')`; calling
`map` on a value that is not an array raises. -/
def mapJoin (errors : Json) : Except JsError String :=
  match errors with
  | .arr xs =>
    match mapMessages xs with
    | .error e => .error e
    | .ok ms => .ok (joinMessages ms)
  | _ => .error .typeError

/-- The inner `try` block of the failure branch: the value of `errText`
after it, starting from `errText`; an error is what the inner `catch` receives. -/
def errorText (errText : String) (body : Option Json) : Except JsError String :=
  match resJson body with
  | .error e => .error e
  | .ok errData =>
    if errData.isTruthy then
      match getErrors errData with
      | some errors =>
        if errors.isTruthy && lengthTruthy errors then mapJoin errors else .ok errText
      | none => .ok errText
    else .ok errText

/-- The outer `try` block of `submitHandler` after `fetch` has settled
with `r`, on the state `st` left by the lines before it; an error is what
the outer `catch` receives. -/
def attempt (r : FetchResult) (st : FormState) : Except JsError FormState :=
  match fetch r with
  | .error e => .error e
  | .ok res =>
    if res.1 then
      match resJson res.2 with
      | .error e => .error e
      | .ok _ =>
        .ok { st with textContent := "Сообщение успешно отправлено. Спасибо!",
                      color := "var(--accent)", values := st.defaults }
    else
      let errText := "Ошибка отправки. Попробуйте позже."
      let errText := match errorText errText res.2 with
        | .ok t => t
        | .error _ => errText
      .ok { st with textContent := errText, color := "crimson" }

/-- The handler `submitHandler` run to its end, `fetch` settling with `r`.
An error of the result is one that escapes the handler. -/
def submitHandler (r : FetchResult) (st : FormState) : Except JsError FormState :=
  let st := { st with textContent := "Отправка...", color := "" }
  match attempt r st with
  | .ok st' => .ok st'
  | .error _ =>
    .ok { st with textContent := "Ошибка сети. Проверьте подключение и попробуйте ещё раз.",
                  color := "crimson" }

/-- One entry of a structured error list: an object whose `message` is the text `msg`. -/
def isErrorEntry (x : Json) (msg : String) : Prop :=
  ∃ kvs, x = .obj kvs ∧ Json.field "message" kvs = some (.str msg)

/-- The errors list of a response body, when the body is JSON text for an
object whose `errors` property is an array. -/
def errorsList (body : Option Json) : Option (List Json) :=
  match body with
  | some (.obj kvs) =>
    match Json.field "errors" kvs with
    | some (.arr xs) => some xs
    | _ => none
  | _ => none

/-- The text that one entry of an errors list contributes to the joined
text: its `message` as `join` converts it, nothing for an entry that has no
`message` or a `null` one. An entry that is `null` itself has none to read. -/
def entryText (x : Json) : String :=
  match x with
  | .obj kvs =>
    match Json.field "message" kvs with
    | some v => Json.elemStr v
    | none => ""
  | _ => ""

/-- The final status text in the words of the specification: the messages
of a non-empty errors list joined with `, `, otherwise the generic message. -/
def specFailureText (body : Option Json) : String :=
  match errorsList body with
  | some (e :: es) => ", ".intercalate ((e :: es).map entryText)
  | _ => "Ошибка отправки. Попробуйте позже."

end FormModule

/-! ## FilterModule: lemmas and claims -/

namespace FilterModule


theorem splitWsGo_spec (cs : List Char) :
    ∃ h t t', splitWsGo false cs = h :: t ∧ cs.splitOnP isSpace = h :: t' ∧
      t.filter (fun x => x != []) = t'.filter (fun x => x != []) ∧
      (splitWsGo true cs).filter (fun x => x != []) = (h :: t').filter (fun x => x != []) := by
  induction cs with
  | nil => exact ⟨[], [], [], by simp [splitWsGo]⟩
  | cons c cs ih =>
    obtain ⟨h, t, t', h1, h2, h3, h4⟩ := ih
    by_cases hc : isSpace c = true
    · refine ⟨[], splitWsGo true cs, h :: t', ?_, ?_, ?_, ?_⟩
      · simp [splitWsGo, hc]
      · simp [List.splitOnP_cons, hc, h2]
      · exact h4
      · simp only [splitWsGo, hc, if_true]
        rw [h4]
        simp
    · refine ⟨c :: h, t, t', ?_, ?_, h3, ?_⟩
      · simp [splitWsGo, hc, h1, List.modifyHead]
      · simp [List.splitOnP_cons, hc, h2, List.modifyHead]
      · simp [splitWsGo, hc, h1, List.modifyHead, h3]

theorem splitWs_filter (cs : List Char) :
    (splitWs cs).filter (fun x => x != []) = (cs.splitOnP isSpace).filter (fun x => x != []) := by
  obtain ⟨h, t, t', h1, h2, h3, -⟩ := splitWsGo_spec cs
  simp only [splitWs, h1, h2, List.filter_cons, h3]

theorem getTags_eq_tagSet (lower : String → String) (el : Item) :
    getTags lower el = tagSet lower el := by
  unfold getTags tagSet
  have : jsOrNull el.dataTechnology "" = el.dataTechnology.getD "" := by
    cases h : el.dataTechnology with
    | none => rfl
    | some s =>
      simp only [jsOrNull, jsOr, Option.getD_some]
      split
      · next h => exact h.symm
      · rfl
  simp only [this, splitWs_filter]

theorem applyFilter_getElem? (lower : String → String) (f : String) (items : List Item)
    (i : Nat) :
    (applyFilter lower f items)[i]? = (items[i]?).map (fun item =>
      if lower f = "" ∨ lower f = "*" ∨ lower f ∈ tagSet lower item then showItem item
      else hideItem item) := by
  have hf : jsOr f "" = f := by
    unfold jsOr
    split
    · next h => exact h.symm
    · rfl
  simp only [applyFilter, hf, List.getElem?_map, getTags_eq_tagSet]
  cases items[i]? with
  | none => rfl
  | some item =>
    simp only [Option.map_some']
    by_cases h1 : lower f = "" ∨ lower f = "*"
    · have : lower f = "" ∨ lower f = "*" ∨ lower f ∈ tagSet lower item := by tauto
      simp [h1, this]
    · by_cases h2 : lower f ∈ tagSet lower item
      · have : lower f = "" ∨ lower f = "*" ∨ lower f ∈ tagSet lower item := by tauto
        simp [h1, h2]
      · have : ¬ (lower f = "" ∨ lower f = "*" ∨ lower f ∈ tagSet lower item) := by tauto
        rw [if_neg h1, if_neg this]
        simp only [h2, if_false]

theorem setActiveButton_length (a : Nat) (bs : List Button) :
    (setActiveButton a bs).length = bs.length := by
  simp [setActiveButton]

theorem setActiveButton_getElem? (a : Nat) (bs : List Button) (i : Nat) :
    (setActiveButton a bs)[i]? = (bs[i]?).map (fun b =>
      if i = a then
        { b with classList := classAdd ACTIVE_CLASS b.classList, ariaPressed := some "true" }
      else
        { b with classList := classRemove ACTIVE_CLASS b.classList,
                 ariaPressed := some "false" }) := by
  simp [setActiveButton, List.getElem?_mapIdx]

theorem mem_classAdd (cls : String) (l : List String) : cls ∈ classAdd cls l := by
  unfold classAdd
  split
  · assumption
  · simp

theorem not_mem_classRemove (cls : String) (l : List String) : cls ∉ classRemove cls l := by
  simp [classRemove]

/-- After `setActiveButton a`, the button at `a` is active and no other is. -/
theorem setActiveButton_exactly (a : Nat) (bs : List Button) (i : Nat) (b : Button)
    (h : (setActiveButton a bs)[i]? = some b) :
    (i = a → isActive b) ∧
    (i ≠ a → ACTIVE_CLASS ∉ b.classList ∧ b.ariaPressed ≠ some "true") := by
  rw [setActiveButton_getElem?] at h
  cases hb : bs[i]? with
  | none => simp [hb] at h
  | some b0 =>
    simp only [hb, Option.map_some', Option.some.injEq] at h
    subst h
    constructor
    · intro hi
      simp only [hi, if_true, isActive]
      exact ⟨mem_classAdd _ _, trivial⟩
    · intro hi
      simp only [hi, if_false]
      exact ⟨not_mem_classRemove _ _, by simp⟩

theorem defaultIndex_lt (bs : List Button) (h : bs ≠ []) : defaultIndex bs < bs.length := by
  unfold defaultIndex
  cases hf : bs.findIdx? (fun b => jsOrNull b.dataFilter "" == "*") with
  | none => simpa using List.length_pos.mpr h
  | some i =>
    rw [List.findIdx?_eq_some_iff_getElem] at hf
    obtain ⟨hlt, -⟩ := hf
    simpa using hlt

theorem click_buttons (lower : String → String) (c : Nat) (st : FilterState)
    (h : c < st.filterButtons.length) :
    (click lower c st).filterButtons = setActiveButton c st.filterButtons := by
  unfold click
  rw [List.getElem?_eq_getElem h]

theorem click_length (lower : String → String) (c : Nat) (st : FilterState) :
    (click lower c st).filterButtons.length = st.filterButtons.length := by
  unfold click
  cases st.filterButtons[c]? with
  | none => rfl
  | some b => simp [setActiveButton_length]

theorem clicks_length (lower : String → String) (cs : List Nat) (st : FilterState) :
    (clicks lower cs st).filterButtons.length = st.filterButtons.length := by
  induction cs generalizing st with
  | nil => rfl
  | cons c cs ih =>
    simp only [clicks, List.foldl_cons] at ih ⊢
    rw [ih, click_length]

theorem init_buttons (lower : String → String) (bs : List Button) (items : List Item)
    (st : FilterState) (h : init lower bs items = some st) :
    bs ≠ [] ∧ st.filterButtons = setActiveButton (defaultIndex bs) bs := by
  unfold init at h
  split at h
  · exact absurd h (by simp)
  · next hg =>
    have hne : bs ≠ [] := by
      intro he
      simp [he] at hg
    refine ⟨hne, ?_⟩
    have hlt := defaultIndex_lt bs hne
    simp only [List.getElem?_eq_getElem hlt, Option.some.injEq] at h
    rw [← h]

/-- The button set most recently by `setActiveButton`. -/
theorem clicks_buttons (lower : String → String) (cs : List Nat) (st : FilterState)
    (hcs : ∀ c ∈ cs, c < st.filterButtons.length) (a : Nat)
    (hst : ∀ (i : Nat) (b : Button), st.filterButtons[i]? = some b →
      (i = a → isActive b) ∧ (i ≠ a → ACTIVE_CLASS ∉ b.classList ∧ b.ariaPressed ≠ some "true")) :
    ∀ (i : Nat) (b : Button), (clicks lower cs st).filterButtons[i]? = some b →
      (i = cs.getLast?.getD a → isActive b) ∧
      (i ≠ cs.getLast?.getD a → ACTIVE_CLASS ∉ b.classList ∧ b.ariaPressed ≠ some "true") := by
  induction cs using List.reverseRecOn with
  | nil => simpa [clicks] using hst
  | append_singleton cs c _ =>
    intro i b hb
    have hc : c < (clicks lower cs st).filterButtons.length := by
      rw [clicks_length]
      exact hcs c (by simp)
    have hstep : (clicks lower (cs ++ [c]) st) = click lower c (clicks lower cs st) := by
      simp [clicks, List.foldl_append]
    rw [hstep, click_buttons lower c _ hc] at hb
    simpa using setActiveButton_exactly c _ i b hb

theorem nextIndex_eq (n idx : Nat) : nextIndex n idx = (((idx + 1) % n : Nat) : Int) := by
  unfold nextIndex
  rw [Int.tmod_eq_emod (by omega) (by omega)]
  push_cast
  rfl

theorem prevIndex_eq (n idx : Nat) (hn : 1 ≤ n) :
    prevIndex n idx = (((idx + n - 1) % n : Nat) : Int) := by
  unfold prevIndex
  rw [Int.tmod_eq_emod (by omega) (by omega)]
  have : ((idx + n - 1 : Nat) : Int) = (idx : Int) - 1 + (n : Int) := by omega
  rw [Int.natCast_mod, this]

theorem jsIndex_natCast {α : Type} (xs : List α) (k : Nat) (h : k < xs.length) :
    jsIndex xs (k : Int) = some k := by
  simp [jsIndex, h]

theorem keydown_next (bs : List Button) (idx : Nat) (focus : Option Nat) (key : String)
    (hk : key = "ArrowRight" ∨ key = "ArrowDown") (hn : 1 ≤ bs.length) :
    keydown bs idx key focus = .ok (some ((idx + 1) % bs.length)) := by
  unfold keydown
  rw [if_pos hk, nextIndex_eq, jsIndex_natCast _ _ (Nat.mod_lt _ hn)]

theorem keydown_prev (bs : List Button) (idx : Nat) (focus : Option Nat) (key : String)
    (hk : key = "ArrowLeft" ∨ key = "ArrowUp") (hn : 1 ≤ bs.length) :
    keydown bs idx key focus = .ok (some ((idx + bs.length - 1) % bs.length)) := by
  have hk' : ¬ (key = "ArrowRight" ∨ key = "ArrowDown") := by
    rcases hk with h | h <;> subst h <;> decide
  unfold keydown
  rw [if_neg hk', if_pos hk, prevIndex_eq _ _ hn, jsIndex_natCast _ _ (Nat.mod_lt _ hn)]

theorem next_prev_round (n idx : Nat) (h : idx < n) :
    ((idx + 1) % n + n - 1) % n = idx ∧ ((idx + n - 1) % n + 1) % n = idx := by
  constructor
  · by_cases hl : idx + 1 = n
    · rw [hl, Nat.mod_self]
      have : 0 + n - 1 = idx := by omega
      rw [this, Nat.mod_eq_of_lt h]
    · rw [Nat.mod_eq_of_lt (show idx + 1 < n by omega)]
      have : idx + 1 + n - 1 = idx + n := by omega
      rw [this, Nat.add_mod_right, Nat.mod_eq_of_lt h]
  · by_cases h0 : idx = 0
    · subst h0
      have : (0 + n - 1) % n = n - 1 := by
        rw [Nat.zero_add]; exact Nat.mod_eq_of_lt (by omega)
      rw [this]
      have : n - 1 + 1 = n := by omega
      rw [this, Nat.mod_self]
    · have : idx + n - 1 = (idx - 1) + n := by omega
      rw [this, Nat.add_mod_right, Nat.mod_eq_of_lt (show idx - 1 < n by omega)]
      have : idx - 1 + 1 = idx := by omega
      rw [this, Nat.mod_eq_of_lt h]

/-! ### Claims on the FilterModule -/

/-- C1: after `applyFilter(f)` every card keeps its place and its tags, and
is shown (display `""`, no `aria-hidden`) exactly when the lowercased filter
is empty, is the wildcard `*`, or is a member of the card's tag set (the
`data-technology` attribute split on whitespace, empty tokens dropped, each
token lowercased); it is hidden (display `"none"` together with
`aria-hidden="true"`) exactly when none of these holds. The outcome is the
same for any two card lists with the same tags, whatever was shown or hidden
in them before. -/
theorem applyFilter_shows_exactly_matching (toLowerCase : String → String) (f : String)
    (items : List Item) :
    (applyFilter toLowerCase f items).length = items.length ∧
    (∀ (i : Nat) (card : Item), items[i]? = some card →
      ∃ res : Item, (applyFilter toLowerCase f items)[i]? = some res ∧
        res.dataTechnology = card.dataTechnology ∧
        ((res.display = "" ∧ res.ariaHidden = none) ↔
          (toLowerCase f = "" ∨ toLowerCase f = "*" ∨
            toLowerCase f ∈ tagSet toLowerCase card)) ∧
        ((res.display = "none" ∧ res.ariaHidden = some "true") ↔
          ¬ (toLowerCase f = "" ∨ toLowerCase f = "*" ∨
            toLowerCase f ∈ tagSet toLowerCase card))) ∧
    (∀ items' : List Item,
      items'.map (fun c => c.dataTechnology) = items.map (fun c => c.dataTechnology) →
      applyFilter toLowerCase f items' = applyFilter toLowerCase f items) := by
  refine ⟨by simp [applyFilter], ?_, ?_⟩
  · intro i card hcard
    rw [applyFilter_getElem?, hcard]
    by_cases hc : toLowerCase f = "" ∨ toLowerCase f = "*" ∨
        toLowerCase f ∈ tagSet toLowerCase card
    · refine ⟨showItem card, by simp [hc], rfl, ?_, ?_⟩
      · simp [showItem, hc]
      · simp [showItem, hc]
    · refine ⟨hideItem card, by simp [hc], rfl, ?_, ?_⟩
      · simp [hideItem, hc]
      · simp [hideItem, hc]
  · intro items' hmap
    apply List.ext_getElem?
    intro i
    rw [applyFilter_getElem?, applyFilter_getElem?]
    have hi : (items'.map (fun c => c.dataTechnology))[i]? =
        (items.map (fun c => c.dataTechnology))[i]? := by rw [hmap]
    simp only [List.getElem?_map] at hi
    cases h1 : items'[i]? with
    | none =>
      cases h2 : items[i]? with
      | none => rfl
      | some c => simp [h1, h2] at hi
    | some c' =>
      cases h2 : items[i]? with
      | none => simp [h1, h2] at hi
      | some c =>
        simp only [h1, h2, Option.map_some', Option.some.injEq] at hi
        simp only [Option.map_some', tagSet, showItem, hideItem, hi]

/-- A run of C1 on two cards: the filter `React` hides the card tagged `Vue JS`. -/
theorem applyFilter_shows_exactly_matching_witness :
    ([⟨some "react ts", "none", some "true"⟩, ⟨some "Vue JS", "", none⟩] : List Item)[1]? =
      some ⟨some "Vue JS", "", none⟩ ∧
    ∃ res : Item, (applyFilter String.toLower "React"
        [⟨some "react ts", "none", some "true"⟩, ⟨some "Vue JS", "", none⟩])[1]? = some res ∧
      res.dataTechnology = some "Vue JS" ∧
      ((res.display = "" ∧ res.ariaHidden = none) ↔
        (String.toLower "React" = "" ∨ String.toLower "React" = "*" ∨
          String.toLower "React" ∈ tagSet String.toLower ⟨some "Vue JS", "", none⟩)) ∧
      ((res.display = "none" ∧ res.ariaHidden = some "true") ↔
        ¬ (String.toLower "React" = "" ∨ String.toLower "React" = "*" ∨
          String.toLower "React" ∈ tagSet String.toLower ⟨some "Vue JS", "", none⟩)) :=
  ⟨rfl, (applyFilter_shows_exactly_matching String.toLower "React"
    [⟨some "react ts", "none", some "true"⟩, ⟨some "Vue JS", "", none⟩]).2.1 1
    ⟨some "Vue JS", "", none⟩ rfl⟩

/-- C2: in the state reached from module initialisation by any sequence of
filter-button clicks, exactly one filter button carries the active state
(the `is-active` class and `aria-pressed="true"`): the button last passed to
`setActiveButton`, which is the last one clicked, or the default button when
none was clicked. Every other button has neither the class nor
`aria-pressed="true"`. -/
theorem exactly_one_active_button (toLowerCase : String → String)
    (filterButtons : List Button) (items : List Item) (st : FilterState) (cs : List Nat)
    (hinit : init toLowerCase filterButtons items = some st)
    (hcs : ∀ c ∈ cs, c < filterButtons.length) :
    (clicks toLowerCase cs st).filterButtons.length = filterButtons.length ∧
    cs.getLast?.getD (defaultIndex filterButtons) < filterButtons.length ∧
    (∃ b, (clicks toLowerCase cs st).filterButtons[cs.getLast?.getD
        (defaultIndex filterButtons)]? = some b ∧ isActive b) ∧
    (∀ (i : Nat) (b : Button), (clicks toLowerCase cs st).filterButtons[i]? = some b →
      i ≠ cs.getLast?.getD (defaultIndex filterButtons) →
      ACTIVE_CLASS ∉ b.classList ∧ b.ariaPressed ≠ some "true") ∧
    (∀ (i : Nat) (b : Button), (clicks toLowerCase cs st).filterButtons[i]? = some b →
      isActive b →
      i = cs.getLast?.getD (defaultIndex filterButtons)) := by
  obtain ⟨hne, hbs⟩ := init_buttons toLowerCase filterButtons items st hinit
  have hlen0 : st.filterButtons.length = filterButtons.length := by
    rw [hbs, setActiveButton_length]
  have hlen : (clicks toLowerCase cs st).filterButtons.length = filterButtons.length := by
    rw [clicks_length, hlen0]
  have ha : cs.getLast?.getD (defaultIndex filterButtons) < filterButtons.length := by
    cases hl : cs.getLast? with
    | none => simpa using defaultIndex_lt filterButtons hne
    | some c =>
      simp only [Option.getD_some]
      exact hcs c (List.mem_of_getLast?_eq_some hl)
  have hall := clicks_buttons toLowerCase cs st (by rw [hlen0]; exact hcs)
    (defaultIndex filterButtons)
    (by intro i b hb; rw [hbs] at hb; exact setActiveButton_exactly _ _ i b hb)
  refine ⟨hlen, ha, ?_, ?_, ?_⟩
  · have hlt : cs.getLast?.getD (defaultIndex filterButtons) <
        (clicks toLowerCase cs st).filterButtons.length := by rw [hlen]; exact ha
    refine ⟨(clicks toLowerCase cs st).filterButtons[cs.getLast?.getD
      (defaultIndex filterButtons)], List.getElem?_eq_getElem hlt, ?_⟩
    exact (hall _ _ (List.getElem?_eq_getElem hlt)).1 rfl
  · intro i b hb hi
    exact (hall i b hb).2 hi
  · intro i b hb hact
    by_contra hi
    exact ((hall i b hb).2 hi).1 hact.1

/-- A run of C2: three buttons, two of them marked active in the markup,
the wildcard second; after clicks on the third and then the first button the
first is active and the button at position 2 is not. -/
theorem exactly_one_active_button_witness :
    (∃ b, (clicks String.toLower [2, 0]
      ⟨setActiveButton 1 [⟨some "react", ["is-active"], none⟩, ⟨some "*", [], none⟩,
          ⟨some "vue", ["is-active"], some "true"⟩],
        applyFilter String.toLower "*" [⟨some "React", "", none⟩]⟩).filterButtons[0]? =
        some b ∧ isActive b) ∧
    (∀ (i : Nat) (b : Button), (clicks String.toLower [2, 0]
      ⟨setActiveButton 1 [⟨some "react", ["is-active"], none⟩, ⟨some "*", [], none⟩,
          ⟨some "vue", ["is-active"], some "true"⟩],
        applyFilter String.toLower "*" [⟨some "React", "", none⟩]⟩).filterButtons[i]? =
        some b → i ≠ 0 → ACTIVE_CLASS ∉ b.classList ∧ b.ariaPressed ≠ some "true") :=
  ⟨(exactly_one_active_button String.toLower
      [⟨some "react", ["is-active"], none⟩, ⟨some "*", [], none⟩,
        ⟨some "vue", ["is-active"], some "true"⟩]
      [⟨some "React", "", none⟩] _ [2, 0] rfl (by decide)).2.2.1,
   (exactly_one_active_button String.toLower
      [⟨some "react", ["is-active"], none⟩, ⟨some "*", [], none⟩,
        ⟨some "vue", ["is-active"], some "true"⟩]
      [⟨some "React", "", none⟩] _ [2, 0] rfl (by decide)).2.2.2.1⟩

/-- C9: with `n ≥ 1` filter buttons and a button position `idx < n`,
ArrowRight and ArrowDown move the focus to position `(idx + 1) mod n`,
ArrowLeft and ArrowUp to `(idx - 1 + n) mod n`; both positions are below
`n`, so the lookup finds a button and nothing is raised; the last button
leads to the first and the first to the last; next followed by previous, and
previous followed by next, bring the focus back to `idx`. -/
theorem arrow_keys_cycle (filterButtons : List Button) (idx : Nat) (focus : Option Nat)
    (hn : 1 ≤ filterButtons.length) (hidx : idx < filterButtons.length) :
    nextIndex filterButtons.length idx = ((idx : Int) + 1) % (filterButtons.length : Int) ∧
    prevIndex filterButtons.length idx =
      ((idx : Int) - 1 + (filterButtons.length : Int)) % (filterButtons.length : Int) ∧
    (0 ≤ nextIndex filterButtons.length idx ∧
      nextIndex filterButtons.length idx < (filterButtons.length : Int)) ∧
    (0 ≤ prevIndex filterButtons.length idx ∧
      prevIndex filterButtons.length idx < (filterButtons.length : Int)) ∧
    keydown filterButtons idx "ArrowRight" focus =
      .ok (some (nextIndex filterButtons.length idx).toNat) ∧
    keydown filterButtons idx "ArrowDown" focus =
      .ok (some (nextIndex filterButtons.length idx).toNat) ∧
    keydown filterButtons idx "ArrowLeft" focus =
      .ok (some (prevIndex filterButtons.length idx).toNat) ∧
    keydown filterButtons idx "ArrowUp" focus =
      .ok (some (prevIndex filterButtons.length idx).toNat) ∧
    (idx = filterButtons.length - 1 → nextIndex filterButtons.length idx = 0) ∧
    (idx = 0 → prevIndex filterButtons.length idx = (filterButtons.length : Int) - 1) ∧
    keydown filterButtons (nextIndex filterButtons.length idx).toNat "ArrowLeft"
      (some (nextIndex filterButtons.length idx).toNat) = .ok (some idx) ∧
    keydown filterButtons (prevIndex filterButtons.length idx).toNat "ArrowRight"
      (some (prevIndex filterButtons.length idx).toNat) = .ok (some idx) := by
  have hnx := nextIndex_eq filterButtons.length idx
  have hpv := prevIndex_eq filterButtons.length idx hn
  have hnlt : (idx + 1) % filterButtons.length < filterButtons.length := Nat.mod_lt _ hn
  have hplt : (idx + filterButtons.length - 1) % filterButtons.length < filterButtons.length :=
    Nat.mod_lt _ hn
  have hround := next_prev_round filterButtons.length idx hidx
  refine ⟨?_, ?_, ⟨?_, ?_⟩, ⟨?_, ?_⟩, ?_, ?_, ?_, ?_, ?_, ?_, ?_, ?_⟩
  · unfold nextIndex
    exact Int.tmod_eq_emod (by omega) (by omega)
  · unfold prevIndex
    exact Int.tmod_eq_emod (by omega) (by omega)
  · rw [hnx]; omega
  · rw [hnx]; omega
  · rw [hpv]; omega
  · rw [hpv]; omega
  · rw [hnx, Int.toNat_ofNat]
    exact keydown_next _ _ _ _ (Or.inl rfl) hn
  · rw [hnx, Int.toNat_ofNat]
    exact keydown_next _ _ _ _ (Or.inr rfl) hn
  · rw [hpv, Int.toNat_ofNat]
    exact keydown_prev _ _ _ _ (Or.inl rfl) hn
  · rw [hpv, Int.toNat_ofNat]
    exact keydown_prev _ _ _ _ (Or.inr rfl) hn
  · intro hlast
    rw [hnx]
    have : idx + 1 = filterButtons.length := by omega
    rw [this, Nat.mod_self]
    rfl
  · intro hfirst
    rw [hpv]
    subst hfirst
    rw [Nat.zero_add, Nat.mod_eq_of_lt (show filterButtons.length - 1 < filterButtons.length by omega)]
    omega
  · rw [hnx, Int.toNat_ofNat, keydown_prev _ _ _ _ (Or.inl rfl) hn, hround.1]
  · rw [hpv, Int.toNat_ofNat, keydown_next _ _ _ _ (Or.inl rfl) hn, hround.2]

/-- A run of C9 on three buttons, from the last one. -/
theorem arrow_keys_cycle_witness :
    keydown [⟨some "*", [], none⟩, ⟨some "react", [], none⟩, ⟨some "vue", [], none⟩] 2
      "ArrowRight" (some 2) = .ok (some 0) ∧
    keydown [⟨some "*", [], none⟩, ⟨some "react", [], none⟩, ⟨some "vue", [], none⟩] 0
      "ArrowLeft" (some 0) = .ok (some 2) :=
  ⟨(arrow_keys_cycle [⟨some "*", [], none⟩, ⟨some "react", [], none⟩, ⟨some "vue", [], none⟩]
      2 (some 2) (by decide) (by decide)).2.2.2.2.1,
   (arrow_keys_cycle [⟨some "*", [], none⟩, ⟨some "react", [], none⟩, ⟨some "vue", [], none⟩]
      0 (some 0) (by decide) (by decide)).2.2.2.2.2.2.1⟩

end FilterModule

/-! ## ThemeModule: lemmas and claims -/

namespace ThemeModule

theorem setTheme_consistent (theme : String) (st : ThemeState) : Consistent (setTheme theme st) := by
  unfold Consistent setTheme setItem applyTheme
  by_cases h : theme = "light"
  · left
    cases hw : st.storeWritable <;> cases hi : st.icon <;> simp [h, hw, hi]
  · right
    cases hw : st.storeWritable <;> cases hi : st.icon <;> simp [h, hw, hi]

theorem setTheme_storeWritable (theme : String) (st : ThemeState) :
    (setTheme theme st).storeWritable = st.storeWritable := by
  unfold setTheme setItem applyTheme
  by_cases h : theme = "light" <;> cases hw : st.storeWritable <;> simp [h, hw]

theorem setTheme_stored (theme : String) (st : ThemeState) (hw : st.storeWritable = true) :
    (setTheme theme st).stored = some theme := by
  unfold setTheme setItem applyTheme
  by_cases h : theme = "light" <;> simp [h, hw]

theorem setTheme_dataTheme (theme : String) (st : ThemeState) :
    (setTheme theme st).dataTheme = if theme = "light" then some "light" else none := by
  unfold setTheme setItem applyTheme
  by_cases h : theme = "light" <;> cases hw : st.storeWritable <;> simp [h, hw]

theorem setTheme_ariaPressed (theme : String) (st : ThemeState) :
    (setTheme theme st).ariaPressed = if theme = "light" then some "true" else some "false" := by
  unfold setTheme setItem applyTheme
  by_cases h : theme = "light" <;> cases hw : st.storeWritable <;> simp [h, hw]

theorem initial_ne_empty (stored : Option String) (matchMedia : Option Bool) :
    initial stored matchMedia ≠ "" := by
  unfold initial
  cases stored with
  | none => simp only []; split <;> decide
  | some s =>
    simp only []
    by_cases hs : s = ""
    · subst hs; simp only [bne_self_eq_false, Bool.false_eq_true, if_false]; split <;> decide
    · simp [hs]

theorem step_consistent (st : ThemeState) (e : Event) (h : Consistent st) : Consistent (step st e) := by
  cases e with
  | click => exact setTheme_consistent _ _
  | change m =>
    simp only [step, onChange]
    split
    · exact setTheme_consistent _ _
    · exact h

theorem step_storeWritable (st : ThemeState) (e : Event) :
    (step st e).storeWritable = st.storeWritable := by
  cases e with
  | click => exact setTheme_storeWritable _ _
  | change m =>
    simp only [step, onChange]
    split
    · exact setTheme_storeWritable _ _
    · rfl

theorem step_stored (st : ThemeState) (e : Event) (hw : st.storeWritable = true)
    (h : truthy st.stored = true) : truthy (step st e).stored = true := by
  cases e with
  | click =>
    simp only [step, onClick]
    rw [setTheme_stored _ _ hw]
    split <;> decide
  | change m =>
    simp only [step, onChange, h]
    simpa using h

theorem run_consistent (st : ThemeState) (es : List Event) (h : Consistent st) :
    Consistent (run st es) := by
  induction es generalizing st with
  | nil => exact h
  | cons e es ih => exact ih (step st e) (step_consistent st e h)

theorem run_storeWritable (st : ThemeState) (es : List Event) :
    (run st es).storeWritable = st.storeWritable := by
  induction es generalizing st with
  | nil => rfl
  | cons e es ih =>
    simp only [run, List.foldl_cons] at ih ⊢
    rw [ih, step_storeWritable]

theorem run_stored (st : ThemeState) (es : List Event) (hw : st.storeWritable = true)
    (h : truthy st.stored = true) : truthy (run st es).stored = true := by
  induction es generalizing st with
  | nil => exact h
  | cons e es ih =>
    exact ih (step st e) (by rw [step_storeWritable]; exact hw) (step_stored st e hw h)

theorem load_eq (matchMedia : Option Bool) (page st : ThemeState)
    (h : load true matchMedia page = some st) :
    st = setTheme (initial page.stored matchMedia) page := by
  simpa [load, eq_comm] using h

theorem onClick_twice (st : ThemeState) (h : Consistent st) :
    applied (onClick (onClick st)) = applied st ∧
    (st.storeWritable = true →
      (onClick (onClick st)).stored =
        some (if st.dataTheme = some "light" then "light" else "dark")) := by
  rcases h with ⟨h1, h2, h3⟩ | ⟨h1, h2, h3⟩
  · constructor
    · cases hw : st.storeWritable <;> cases hi : st.icon <;>
        simp_all [applied, onClick, setTheme, setItem, applyTheme]
    · intro hw
      cases hi : st.icon <;> simp_all [onClick, setTheme, setItem, applyTheme]
  · constructor
    · cases hw : st.storeWritable <;> cases hi : st.icon <;>
        simp_all [applied, onClick, setTheme, setItem, applyTheme]
    · intro hw
      cases hi : st.icon <;> simp_all [onClick, setTheme, setItem, applyTheme]

/-- C3 (amended): on load the module applies and persists
`stored ? stored : (prefersLight ? 'light' : 'dark')`: the persisted value
when one exists and is not the empty string, otherwise `light` when the OS
prefers light, otherwise `dark`. The root carries `data-theme="light"`
exactly when that value is `light`, and no marker otherwise. With no
persisted value and OS preference light the marker is `light`; with the
persisted value `dark` there is no marker, whatever the OS preference. -/
theorem load_applies_truthy_stored_or_os (matchMedia : Option Bool) (page : ThemeState) :
    initial page.stored matchMedia =
      (match page.stored with
       | some s => if s = "" then (if matchMedia = some true then "light" else "dark") else s
       | none => if matchMedia = some true then "light" else "dark") ∧
    (∃ st, load true matchMedia page = some st ∧
      st.dataTheme =
        (if initial page.stored matchMedia = "light" then some "light" else none) ∧
      st.ariaPressed =
        (if initial page.stored matchMedia = "light" then some "true" else some "false") ∧
      st.stored =
        (if page.storeWritable then some (initial page.stored matchMedia) else page.stored)) ∧
    (load true (some true) { page with stored := none }).map (fun st => st.dataTheme) =
      some (some "light") ∧
    (load true matchMedia { page with stored := some "dark" }).map (fun st => st.dataTheme) =
      some none := by
  refine ⟨?_, ⟨setTheme (initial page.stored matchMedia) page, by simp [load],
    setTheme_dataTheme _ _, setTheme_ariaPressed _ _, ?_⟩, ?_, ?_⟩
  · unfold initial
    cases page.stored with
    | none => cases matchMedia with
      | none => simp
      | some b => cases b <;> simp
    | some s =>
      by_cases hs : s = ""
      · cases matchMedia with
        | none => simp [hs]
        | some b => cases b <;> simp [hs]
      · simp [hs]
  · cases hw : page.storeWritable
    · unfold setTheme setItem applyTheme
      by_cases h : initial page.stored matchMedia = "light" <;> simp [h, hw]
    · simpa using setTheme_stored _ _ hw
  · simp [load, setTheme_dataTheme, initial]
  · simp [load, setTheme_dataTheme, initial]

/-- C3 fails as stated: with the empty string stored and the OS preferring
light, the code marks the root `light`, while applying
`persisted ?? (osPrefersLight ? light : dark)` leaves the root unmarked. -/
theorem load_empty_stored_differs_from_spec :
    (load true (some true) ⟨none, none, none, some "", true⟩).map (fun st => st.dataTheme) =
      some (some "light") ∧
    (setTheme (specInitial (some "") true) ⟨none, none, none, some "", true⟩).dataTheme = none ∧
    initial (some "") (some true) ≠ specInitial (some "") true := by
  refine ⟨by decide, by decide, by decide⟩

/-- C4: in every state reached from load by toggle clicks and OS
colour-scheme changes the root marker is `light` or absent, and two clicks
on the toggle bring root marker, toggle `aria-pressed`, icon source and
label back to what they were; when the store accepts writes the persisted
value after the second click is `light` if the marker is `light` and `dark`
if it is absent. -/
theorem toggle_twice_restores (matchMedia : Option Bool) (page st0 : ThemeState) (es : List Event)
    (hload : load true matchMedia page = some st0) :
    ((run st0 es).dataTheme = some "light" ∨ (run st0 es).dataTheme = none) ∧
    applied (onClick (onClick (run st0 es))) = applied (run st0 es) ∧
    (page.storeWritable = true →
      (onClick (onClick (run st0 es))).stored =
        some (if (run st0 es).dataTheme = some "light" then "light" else "dark")) := by
  have h0 : Consistent st0 := by
    rw [load_eq matchMedia page st0 hload]
    exact setTheme_consistent _ _
  have hc := run_consistent st0 es h0
  have hw : (run st0 es).storeWritable = page.storeWritable := by
    rw [run_storeWritable, load_eq matchMedia page st0 hload, setTheme_storeWritable]
  refine ⟨?_, (onClick_twice _ hc).1, ?_⟩
  · rcases hc with ⟨h, -, -⟩ | ⟨h, -, -⟩
    · exact Or.inl h
    · exact Or.inr h
  · intro hpw
    exact (onClick_twice _ hc).2 (by rw [hw]; exact hpw)

/-- A run of C4: stored `dark`, one click and one OS change before the two clicks. -/
theorem toggle_twice_restores_witness :
    applied (onClick (onClick ( run
      (setTheme "dark" ⟨some "light", none, some ⟨"a.svg", "a"⟩, some "dark", true⟩)
      [Event.click, Event.change false]))) =
    applied (run (setTheme "dark" ⟨some "light", none, some ⟨"a.svg", "a"⟩, some "dark", true⟩)
      [Event.click, Event.change false]) :=
  (toggle_twice_restores (some true) ⟨some "light", none, some ⟨"a.svg", "a"⟩, some "dark", true⟩
    _ [Event.click, Event.change false] rfl).2.1

/-- C10: with a store that accepts writes, load persists the initial theme
also when it came from the OS signal or the default, so in every state
reached from load by toggle clicks and OS colour-scheme changes the store
holds a non-empty value, and an OS colour-scheme change leaves that state
(applied theme and stored value) as it is. -/
theorem stored_nonempty_after_load (matchMedia : Option Bool) (page st0 : ThemeState)
    (es : List Event) (hload : load true matchMedia page = some st0)
    (hw : page.storeWritable = true) :
    st0.stored = some (initial page.stored matchMedia) ∧
    (∃ v, (run st0 es).stored = some v ∧ v ≠ "") ∧
    (∀ isMatch : Bool, onChange isMatch (run st0 es) = run st0 es) := by
  have hst0 := load_eq matchMedia page st0 hload
  have hs0 : st0.stored = some (initial page.stored matchMedia) := by
    rw [hst0]; exact setTheme_stored _ _ hw
  have hw0 : st0.storeWritable = true := by
    rw [hst0, setTheme_storeWritable]; exact hw
  have ht0 : truthy st0.stored = true := by
    rw [hs0]
    simpa [truthy] using initial_ne_empty page.stored matchMedia
  have ht := run_stored st0 es hw0 ht0
  refine ⟨hs0, ?_, ?_⟩
  · cases hv : (run st0 es).stored with
    | none => simp [hv, truthy] at ht
    | some v =>
      refine ⟨v, rfl, ?_⟩
      simpa [hv, truthy] using ht
  · intro m
    simp [onChange, ht]

/-- A run of C10: nothing stored, the OS prefers light, then the OS turns dark. -/
theorem stored_nonempty_after_load_witness :
    (setTheme "light" ⟨none, none, none, none, true⟩).stored = some "light" ∧
    onChange false (run (setTheme "light" ⟨none, none, none, none, true⟩) [Event.change false]) =
      run (setTheme "light" ⟨none, none, none, none, true⟩) [Event.change false] :=
  ⟨(stored_nonempty_after_load (some true) ⟨none, none, none, none, true⟩ _
      [Event.change false] rfl rfl).1,
   (stored_nonempty_after_load (some true) ⟨none, none, none, none, true⟩ _
      [Event.change false] rfl rfl).2.2 false⟩

end ThemeModule

/-! ## ModalModule: lemmas and claims -/

namespace ModalModule

theorem nodeAt_nil (q : Pos) : nodeAt [] q = none := by
  cases q with
  | nil => rfl
  | cons i rest =>
    cases rest with
    | nil => rfl
    | cons j rest => rfl

theorem nodeAt_modifyAt_same (f : Node → Node) (q : Pos) (doc : List Node) :
    nodeAt (modifyAt f q doc) q = (nodeAt doc q).map f := by
  induction q generalizing doc with
  | nil => simp [nodeAt, modifyAt]
  | cons i rest ih =>
    cases rest with
    | nil =>
      simp only [nodeAt, modifyAt]
      cases h : doc[i]? with
      | none => simp [h]
      | some n =>
        have hi : i < doc.length := by
          by_contra hlt
          rw [List.getElem?_eq_none (by omega)] at h
          exact absurd h (by simp)
        simp [List.getElem?_set_self, hi]
    | cons j rest =>
      simp only [nodeAt, modifyAt]
      cases h : doc[i]? with
      | none => simp [h]
      | some n =>
        have hi : i < doc.length := by
          by_contra hlt
          rw [List.getElem?_eq_none (by omega)] at h
          exact absurd h (by simp)
        simp only [List.getElem?_set_self, hi, List.getElem?_eq_getElem, List.length_set,
          List.getElem_set_self]
        cases n with
        | text d => simp [Node.withChildren, Node.children, nodeAt_nil]
        | element t cs s ch =>
          simp only [Node.withChildren, Node.children]
          exact ih ch

theorem nodeAt_modifyAt_apart (f : Node → Node) (p q : Pos) (doc : List Node)
    (hpq : below p q = false) (hqp : below q p = false) :
    nodeAt (modifyAt f p doc) q = nodeAt doc q := by
  induction p generalizing q doc with
  | nil => simp [below] at hpq
  | cons i rest ih =>
    cases q with
    | nil => simp [below] at hqp
    | cons k qs =>
      by_cases hik : i = k
      · subst hik
        simp only [below, beq_self_eq_true, Bool.true_and] at hpq hqp
        cases rest with
        | nil => simp [below] at hpq
        | cons j rest =>
          cases qs with
          | nil => simp [below] at hqp
          | cons k2 qs =>
            simp only [nodeAt, modifyAt]
            cases h : doc[i]? with
            | none => simp [h]
            | some n =>
              have hi : i < doc.length := by
                by_contra hlt
                rw [List.getElem?_eq_none (by omega)] at h
                exact absurd h (by simp)
              simp only [List.getElem?_set_self, hi, List.getElem?_eq_getElem, List.length_set,
                List.getElem_set_self]
              have hn : doc[i] = n := by
                rw [List.getElem?_eq_getElem hi] at h
                exact Option.some.inj h
              cases n with
              | text d => simp [Node.withChildren, Node.children, nodeAt_nil, hn]
              | element t cs s ch =>
                simp only [Node.withChildren, Node.children, hn]
                exact ih (k2 :: qs) ch hpq hqp
      · have hset : ∀ g : Node → Node, (match doc[i]? with
            | some n => doc.set i (g n)
            | none => doc)[k]? = doc[k]? := by
          intro g
          cases h : doc[i]? with
          | none => rfl
          | some n => simp [List.getElem?_set_ne hik]
        cases rest with
        | nil =>
          cases qs with
          | nil => simp only [nodeAt, modifyAt]; exact hset f
          | cons k2 qs => simp only [nodeAt, modifyAt]; rw [hset f]
        | cons j rest =>
          cases qs with
          | nil =>
            simp only [nodeAt, modifyAt]
            exact hset (fun n => n.withChildren (modifyAt f (j :: rest)))
          | cons k2 qs =>
            simp only [nodeAt, modifyAt]
            rw [hset (fun n => n.withChildren (modifyAt f (j :: rest)))]

theorem querySelector_sound (sel : Node → Bool) (doc : List Node) (q : Pos)
    (h : querySelector sel doc = some q) : ∃ n, nodeAt doc q = some n ∧ sel n = true := by
  unfold querySelector at h
  have := List.find?_some h
  cases hn : nodeAt doc q with
  | none => simp [hn] at this
  | some n => exact ⟨n, rfl, by simpa [hn] using this⟩

theorem writeSrc_apart (img : Option Pos) (v : Option String) (doc : List Node) (q : Pos)
    (h : apart img (some q) = true) : nodeAt (writeSrc img v doc) q = nodeAt doc q := by
  unfold writeSrc
  cases img with
  | none => rfl
  | some pi =>
    cases v with
    | none => rfl
    | some src =>
      simp only []
      split
      · simp only [apart, Bool.and_eq_true, Bool.not_eq_true'] at h
        exact nodeAt_modifyAt_apart _ pi q doc h.1 h.2
      · rfl

theorem writeInnerHTML_apart (parse : String → String → List Node) (el : Option Pos)
    (markup : String) (doc : List Node) (q : Pos) (h : apart el (some q) = true) :
    nodeAt (writeInnerHTML parse el markup doc) q = nodeAt doc q := by
  unfold writeInnerHTML
  cases el with
  | none => rfl
  | some p =>
    simp only [apart, Bool.and_eq_true, Bool.not_eq_true'] at h
    exact nodeAt_modifyAt_apart _ p q doc h.1 h.2

theorem writeInnerHTML_same (parse : String → String → List Node) (q : Pos)
    (markup : String) (doc : List Node) :
    nodeAt (writeInnerHTML parse (some q) markup doc) q =
      (nodeAt doc q).map (Node.setInnerHTML parse markup) :=
  nodeAt_modifyAt_same _ q doc

theorem apart_comm (a b : Option Pos) : apart a b = apart b a := by
  cases a <;> cases b <;> simp [apart, Bool.and_comm]

theorem detached_of_apart (title : Option Pos) (q : Pos) (h : apart title (some q) = true) :
    detached title q = false := by
  cases title with
  | none => rfl
  | some pt =>
    simp only [apart, Bool.and_eq_true, Bool.not_eq_true'] at h
    simp [detached, h.1]

theorem setInnerHTML_children (parse : String → String → List Node) (markup : String)
    (cls : String) (n : Node) (h : n.hasClass cls = true) :
    (n.setInnerHTML parse markup).children = parse n.tag markup ∧
    (n.setInnerHTML parse markup).tag = n.tag ∧
    (n.setInnerHTML parse markup).src = n.src := by
  cases n with
  | text d => simp [Node.hasClass] at h
  | element t cs s ch => simp [Node.setInnerHTML, Node.children, Node.tag, Node.src]

/-- The nodes below the modal after `showModalContent`, read at a position. -/
theorem showModalContent_content (parse : String → String → List Node) (content : Content)
    (m : Modal) :
    (showModalContent parse content m).content =
      (match querySelector (Node.hasClass "modal__description") m.content with
       | some pd =>
         if detached (querySelector (Node.hasClass "modal__title") m.content) pd then
           writeInnerHTML parse (querySelector (Node.hasClass "modal__title") m.content)
             content.titleProject
             (writeSrc (querySelector Node.isImg m.content) content.imagesProject m.content)
         else
           writeInnerHTML parse (some pd) content.descriptionProject
             (writeInnerHTML parse (querySelector (Node.hasClass "modal__title") m.content)
               content.titleProject
               (writeSrc (querySelector Node.isImg m.content) content.imagesProject m.content))
       | none =>
         writeInnerHTML parse (querySelector (Node.hasClass "modal__title") m.content)
           content.titleProject
           (writeSrc (querySelector Node.isImg m.content) content.imagesProject m.content)) := by
  rfl

theorem clickCard_content (parse : String → String → List Node) (p : Card) (m : Modal) :
    (clickCard parse p m).content = (showModalContent parse (readContent p) m).content := by
  rfl

/-! ### Claims on the ModalModule -/

/-- C5: when a card is opened in a modal that has a demo link, whatever
the link was before, the link is shown (display `inline-block`) with `href`
equal to the card's `data-demo` value exactly when that value is a non-empty
string; when the card has no `data-demo` attribute or an empty one, the link
is hidden (display `none`) and has no `href`. -/
theorem demo_link_follows_card (parse : String → String → List Node) (p : Card) (m : Modal)
    (l : Link) (hl : m.link = some l) :
    ∃ l' : Link, (clickCard parse p m).link = some l' ∧
      ((l'.display = "inline-block" ∧ l'.href = p.dataDemo) ↔
        (∃ d, p.dataDemo = some d ∧ d ≠ "")) ∧
      ((p.dataDemo = none ∨ p.dataDemo = some "") → l'.display = "none" ∧ l'.href = none) := by
  cases hd : p.dataDemo with
  | none =>
    refine ⟨{ l with display := "none", href := none }, ?_, ?_, ?_⟩
    · simp [clickCard, openModal, showModalContent, readContent, hl, hd]
    · simp
    · simp
  | some d =>
    by_cases hde : d = ""
    · refine ⟨{ l with display := "none", href := none }, ?_, ?_, ?_⟩
      · simp [clickCard, openModal, showModalContent, readContent, hl, hd, hde]
      · simp [hde]
      · simp
    · refine ⟨{ l with display := "inline-block", href := some d }, ?_, ?_, ?_⟩
      · simp [clickCard, openModal, showModalContent, readContent, hl, hd, hde]
      · simp [hde]
      · simp [hde]

/-- A run of C5: a card with a demo address opened over a hidden link with a stale `href`. -/
theorem demo_link_follows_card_witness :
    ∃ l' : Link, (clickCard (fun _ s => [Node.text s]) ⟨none, none, none, some "https://x"⟩
        ⟨[], some ⟨"none", some "https://old"⟩, "none", "none", none, ""⟩).link =
        some l' ∧
      ((l'.display = "inline-block" ∧ l'.href = some "https://x") ↔
        (∃ d, some "https://x" = some d ∧ d ≠ "")) ∧
      (((some "https://x" : Option String) = none ∨ some "https://x" = some "") →
        l'.display = "none" ∧ l'.href = none) :=
  demo_link_follows_card (fun _ s => [Node.text s]) ⟨none, none, none, some "https://x"⟩
    ⟨[], some ⟨"none", some "https://old"⟩, "none", "none", none, ""⟩
    ⟨"none", some "https://old"⟩ rfl

/-- C6 (amended): take any card and any prior state of a modal in which
the image, the title element and the description element that the lookups
of `showModalContent` find are three elements none of which contains
another. After a click on the card the title element holds what the HTML
parser makes of the card's title inner markup, and the description element
what it makes of the card's description inner markup, the empty string
standing for an element missing from the card, whatever they held before.
The image element has the card's image `src` as its `src` when that is a
non-empty string; when the card has no image, or its image has no `src` or
an empty one, the image element keeps the `src` it had. -/
theorem modal_content_follows_card (parse : String → String → List Node) (p : Card)
    (m : Modal) (hsep : separate m.content = true) :
    (∀ pt : Pos, querySelector (Node.hasClass "modal__title") m.content = some pt →
      ∃ n n' : Node, nodeAt m.content pt = some n ∧
        nodeAt (clickCard parse p m).content pt = some n' ∧
        n'.children = parse n.tag (p.title.getD "") ∧ n'.tag = n.tag) ∧
    (∀ pd : Pos, querySelector (Node.hasClass "modal__description") m.content = some pd →
      ∃ n n' : Node, nodeAt m.content pd = some n ∧
        nodeAt (clickCard parse p m).content pd = some n' ∧
        n'.children = parse n.tag (p.description.getD "") ∧ n'.tag = n.tag) ∧
    (∀ pi : Pos, querySelector Node.isImg m.content = some pi →
      ∃ n n' : Node, nodeAt m.content pi = some n ∧
        nodeAt (clickCard parse p m).content pi = some n' ∧ n'.tag = n.tag ∧
        (∀ s : String, p.img = some (some s) → s ≠ "" → n'.src = some s) ∧
        ((p.img = none ∨ p.img = some none ∨ p.img = some (some "")) → n'.src = n.src)) := by
  simp only [separate, Bool.and_eq_true] at hsep
  obtain ⟨⟨hit, hid⟩, htd⟩ := hsep
  have htitle : (readContent p).titleProject = p.title.getD "" := by
    cases h : p.title <;> simp [readContent, h]
  have hdesc : (readContent p).descriptionProject = p.description.getD "" := by
    cases h : p.description <;> simp [readContent, h]
  refine ⟨?_, ?_, ?_⟩
  · intro pt hpt
    obtain ⟨n, hn, hsel⟩ := querySelector_sound _ _ _ hpt
    rw [hpt] at hit htd
    have h2 : nodeAt (writeInnerHTML parse (some pt) (readContent p).titleProject
        (writeSrc (querySelector Node.isImg m.content) (readContent p).imagesProject
          m.content)) pt = some (n.setInnerHTML parse (p.title.getD "")) := by
      rw [writeInnerHTML_same, writeSrc_apart _ _ _ _ hit, hn, htitle]
      rfl
    have hres : nodeAt (clickCard parse p m).content pt =
        some (n.setInnerHTML parse (p.title.getD "")) := by
      rw [clickCard_content, showModalContent_content, hpt]
      cases hd : querySelector (Node.hasClass "modal__description") m.content with
      | none => exact h2
      | some pd =>
        rw [hd] at htd
        have hdet : detached (some pt) pd = false := detached_of_apart _ _ htd
        simp only [hdet, Bool.false_eq_true, if_false]
        have hap : apart (some pd) (some pt) = true := by rw [apart_comm]; exact htd
        rw [writeInnerHTML_apart _ _ _ _ _ hap]
        exact h2
    have hc := setInnerHTML_children parse (p.title.getD "") _ n hsel
    exact ⟨n, _, hn, hres, hc.1, hc.2.1⟩
  · intro pd hpd
    obtain ⟨n, hn, hsel⟩ := querySelector_sound _ _ _ hpd
    rw [hpd] at hid htd
    have hdet : detached (querySelector (Node.hasClass "modal__title") m.content) pd = false :=
      detached_of_apart _ _ htd
    have hres : nodeAt (clickCard parse p m).content pd =
        some (n.setInnerHTML parse (p.description.getD "")) := by
      rw [clickCard_content, showModalContent_content, hpd]
      simp only [hdet, Bool.false_eq_true, if_false]
      rw [writeInnerHTML_same, writeInnerHTML_apart _ _ _ _ _ htd,
        writeSrc_apart _ _ _ _ hid, hn, hdesc]
      rfl
    have hc := setInnerHTML_children parse (p.description.getD "") _ n hsel
    exact ⟨n, _, hn, hres, hc.1, hc.2.1⟩
  · intro pi hpi
    obtain ⟨n, hn, hsel⟩ := querySelector_sound _ _ _ hpi
    rw [hpi] at hit hid
    have hti : apart (querySelector (Node.hasClass "modal__title") m.content) (some pi) =
        true := by rw [apart_comm]; exact hit
    have hdi : ∀ pd, querySelector (Node.hasClass "modal__description") m.content = some pd →
        apart (some pd) (some pi) = true := by
      intro pd hd
      rw [apart_comm, ← hd]
      exact hid
    have hres : nodeAt (clickCard parse p m).content pi =
        nodeAt (writeSrc (some pi) (readContent p).imagesProject m.content) pi := by
      rw [clickCard_content, showModalContent_content, hpi]
      cases hd : querySelector (Node.hasClass "modal__description") m.content with
      | none => exact writeInnerHTML_apart _ _ _ _ _ hti
      | some pd =>
        simp only []
        split
        · exact writeInnerHTML_apart _ _ _ _ _ hti
        · rw [writeInnerHTML_apart _ _ _ _ _ (hdi pd hd)]
          exact writeInnerHTML_apart _ _ _ _ _ hti
    cases himg : (readContent p).imagesProject with
    | none =>
      have hp : p.img = some none := by
        cases h : p.img with
        | none => simp [readContent, h] at himg
        | some o =>
          cases o with
          | none => rfl
          | some s => simp [readContent, h] at himg
      refine ⟨n, n, hn, ?_, rfl, ?_, fun _ => rfl⟩
      · rw [hres, himg]
        exact hn
      · intro s hs
        rw [hp] at hs
        exact absurd hs (by simp)
    | some src =>
      by_cases hsrc : src = ""
      · have hp : p.img = none ∨ p.img = some (some "") := by
          cases h : p.img with
          | none => exact Or.inl rfl
          | some o =>
            cases o with
            | none => simp [readContent, h] at himg
            | some s =>
              simp only [readContent, h, Option.some.injEq] at himg
              right
              rw [himg, hsrc]
        refine ⟨n, n, hn, ?_, rfl, ?_, fun _ => rfl⟩
        · rw [hres, himg]
          simp only [writeSrc, hsrc, bne_self_eq_false, Bool.false_eq_true, if_false]
          exact hn
        · intro s hs hne
          rcases hp with hp | hp
          · rw [hp] at hs
            exact absurd hs (by simp)
          · rw [hp] at hs
            simp only [Option.some.injEq] at hs
            exact absurd hs.symm hne
      · have hp : p.img = some (some src) := by
          cases h : p.img with
          | none =>
            simp only [readContent, h, Option.some.injEq] at himg
            exact absurd himg.symm hsrc
          | some o =>
            cases o with
            | none => simp [readContent, h] at himg
            | some s =>
              simp only [readContent, h, Option.some.injEq] at himg
              rw [himg]
        have hel : ∃ t cs s ch, n = Node.element t cs s ch := by
          cases n with
          | text d => simp [Node.isImg] at hsel
          | element t cs s ch => exact ⟨t, cs, s, ch, rfl⟩
        obtain ⟨t, cs, s0, ch, rfl⟩ := hel
        refine ⟨_, Node.element t cs (some src) ch, hn, ?_, rfl, ?_, ?_⟩
        · rw [hres, himg]
          simp only [writeSrc, bne_iff_ne, ne_eq, hsrc, not_false_eq_true, if_true]
          rw [nodeAt_modifyAt_same, hn]
          rfl
        · intro s hs _
          rw [hp] at hs
          simp only [Option.some.injEq] at hs
          simp [Node.src, hs]
        · intro h
          rcases h with h | h | h
          · rw [hp] at h; exact absurd h (by simp)
          · rw [hp] at h; exact absurd h (by simp)
          · rw [hp] at h
            simp only [Option.some.injEq] at h
            exact absurd h hsrc

/-- A run of C6 (amended): a card with an image opened over a modal with
stale content, the image before the title in the template. -/
theorem modal_content_follows_card_witness :
    ∃ n n' : Node,
      nodeAt [Node.element "img" [] (some "old.png") [],
        Node.element "h3" ["modal__title"] none [Node.text "old"],
        Node.element "p" ["modal__description"] none [Node.text "old"]] [0] = some n ∧
      nodeAt (clickCard (fun _ s => [Node.text s])
        ⟨some (some "a.png"), some "<b>A</b>", none, none⟩
        ⟨[Node.element "img" [] (some "old.png") [],
          Node.element "h3" ["modal__title"] none [Node.text "old"],
          Node.element "p" ["modal__description"] none [Node.text "old"]],
          none, "none", "none", none, ""⟩).content [0] = some n' ∧
      n'.tag = n.tag ∧
      (∀ s : String, (some (some "a.png") : Option (Option String)) = some (some s) →
        s ≠ "" → n'.src = some s) ∧
      (((some (some "a.png") : Option (Option String)) = none ∨
          (some (some "a.png") : Option (Option String)) = some none ∨
          (some (some "a.png") : Option (Option String)) = some (some "")) →
        n'.src = n.src) :=
  (modal_content_follows_card (fun _ s => [Node.text s])
    ⟨some (some "a.png"), some "<b>A</b>", none, none⟩
    ⟨[Node.element "img" [] (some "old.png") [],
      Node.element "h3" ["modal__title"] none [Node.text "old"],
      Node.element "p" ["modal__description"] none [Node.text "old"]],
      none, "none", "none", none, ""⟩ (by decide)).2.2 [0] (by decide)

/-- C6 fails as stated, in two ways. A card without image, opened over a
modal whose image still has a source, leaves that source in place instead of
the empty string. A card with image `b.png`, opened over a modal whose title
element precedes the modal image and holds an image from an earlier card,
writes `b.png` to the image inside the title, which the title assignment
then removes: the modal's image source afterwards is still `a.png`. -/
theorem modal_keeps_stale_image :
    imageSrc (clickCard (fun _ s => [Node.text s]) ⟨none, some "B", some "b", none⟩
      ⟨[Node.element "img" [] (some "old.png") [],
        Node.element "h3" ["modal__title"] none [Node.text "A"],
        Node.element "p" ["modal__description"] none [Node.text "a"]],
        none, "flex", "block", some "false", "hidden"⟩).content = some "old.png" ∧
    specImageSrc ⟨none, some "B", some "b", none⟩ = some "" ∧
    imageSrc (clickCard (fun _ s => [Node.text s])
      ⟨some (some "b.png"), some "B", some "b", none⟩
      ⟨[Node.element "h3" ["modal__title"] none [Node.element "img" [] (some "icon.png") []],
        Node.element "img" [] (some "a.png") [],
        Node.element "p" ["modal__description"] none [Node.text "a"]],
        none, "flex", "block", some "false", "hidden"⟩).content = some "a.png" ∧
    specImageSrc ⟨some (some "b.png"), some "B", some "b", none⟩ = some "b.png" := by
  refine ⟨by decide, by decide, by decide, by decide⟩

end ModalModule

/-! ## FormModule: lemmas and claims -/

namespace FormModule

theorem mapMessages_entries (es : List Json) (msgs : List String)
    (h : List.Forall₂ isErrorEntry es msgs) :
    mapMessages es = .ok (msgs.map (fun m => some (Json.str m))) := by
  induction h with
  | nil => rfl
  | cons hx _ ih =>
    obtain ⟨kvs, rfl, hm⟩ := hx
    simp [mapMessages, getMessage, hm, ih]

theorem joinMessages_strings (msgs : List String) :
    joinMessages (msgs.map (fun m => some (Json.str m))) = ", ".intercalate msgs := by
  unfold joinMessages
  congr 1
  induction msgs with
  | nil => rfl
  | cons m ms ih =>
    simp only [List.map_map, List.map_cons, Function.comp, Json.elemStr] at ih ⊢
    rw [ih]

theorem errorText_entries (errText : String) (body : Option Json) (es : List Json)
    (msgs : List String) (hes : errorsList body = some es) (hne : es ≠ [])
    (h : List.Forall₂ isErrorEntry es msgs) :
    errorText errText body = .ok (", ".intercalate msgs) := by
  unfold errorsList at hes
  split at hes
  · next kvs =>
    split at hes
    · next xs hf =>
      simp only [Option.some.injEq] at hes
      subst hes
      have hlen : xs.length ≠ 0 := by simpa using hne
      simp [errorText, resJson, Json.isTruthy, getErrors, hf, lengthTruthy, hlen, mapJoin,
        mapMessages_entries xs msgs h, joinMessages_strings]
    · exact absurd hes (by simp)
  · exact absurd hes (by simp)

theorem mapJoin_not_arr (errors : Json) (h : ∀ xs, errors ≠ .arr xs) :
    mapJoin errors = .error .typeError := by
  cases errors with
  | arr xs => exact absurd rfl (h xs)
  | _ => rfl

theorem errorText_no_list (errText : String) (body : Option Json)
    (h : errorsList body = none ∨ errorsList body = some []) :
    errorText errText body = .ok errText ∨ ∃ e, errorText errText body = .error e := by
  cases body with
  | none => exact Or.inr ⟨.parseError, rfl⟩
  | some j =>
    cases j with
    | obj kvs =>
      cases hf : Json.field "errors" kvs with
      | none => left; simp [errorText, resJson, Json.isTruthy, getErrors, hf]
      | some e =>
        cases e with
        | arr xs =>
          have hx : xs = [] := by
            rcases h with h | h <;> simp [errorsList, hf] at h
            exact h
          subst hx
          left
          simp [errorText, resJson, Json.isTruthy, getErrors, hf, lengthTruthy]
        | null => left; simp [errorText, resJson, Json.isTruthy, getErrors, hf]
        | bool b =>
          left
          cases b <;> simp [errorText, resJson, Json.isTruthy, getErrors, hf, lengthTruthy]
        | num shown =>
          left
          simp [errorText, resJson, Json.isTruthy, getErrors, hf, lengthTruthy]
        | str s =>
          by_cases hs : s = ""
          · left; simp [errorText, resJson, Json.isTruthy, getErrors, hf, hs]
          · right
            refine ⟨.typeError, ?_⟩
            have hl : s.length ≠ 0 := by
              intro h0
              apply hs
              cases s with
              | mk data =>
                have : data = [] := List.length_eq_zero.mp h0
                subst this
                rfl
            simp [errorText, resJson, Json.isTruthy, getErrors, hf, hs, lengthTruthy, hl, mapJoin]
        | obj kvs2 =>
          by_cases hl : lengthTruthy (.obj kvs2) = true
          · right
            refine ⟨.typeError, ?_⟩
            simp [errorText, resJson, Json.isTruthy, getErrors, hf, hl, mapJoin]
          · left
            simp [errorText, resJson, Json.isTruthy, getErrors, hf, hl]
    | null => left; simp [errorText, resJson, Json.isTruthy]
    | bool b => left; cases b <;> simp [errorText, resJson, Json.isTruthy, getErrors]
    | num shown =>
      left
      by_cases hz : shown = "0" <;> simp [errorText, resJson, Json.isTruthy, getErrors, hz]
    | str s =>
      left
      by_cases hz : s = "" <;> simp [errorText, resJson, Json.isTruthy, getErrors, hz]
    | arr xs => left; simp [errorText, resJson, Json.isTruthy, getErrors]

theorem submitHandler_failure (body : Option Json) (st : FormState) :
    submitHandler (.response false body) st =
      .ok { st with
        textContent := (match errorText "Ошибка отправки. Попробуйте позже." body with
          | .ok t => t
          | .error _ => "Ошибка отправки. Попробуйте позже.")
        color := "crimson" } := by
  simp [submitHandler, attempt, fetch]

/-- C7, the code at the failing input: a success response (`res.ok`) whose
body is not JSON text ends with the network-error message in `crimson` and
the fields as they were, not with the success message and a reset form; a
success response with any JSON body ends with the success message in
`var(--accent)` and the fields reset. -/
theorem success_with_unparseable_body_shows_network_error (st : FormState) :
    submitHandler (.response true none) st =
      .ok { st with
        textContent := "Ошибка сети. Проверьте подключение и попробуйте ещё раз."
        color := "crimson" } ∧
    (∀ j : Json, submitHandler (.response true (some j)) st =
      .ok { st with
        textContent := "Сообщение успешно отправлено. Спасибо!"
        color := "var(--accent)"
        values := st.defaults }) := by
  constructor
  · simp [submitHandler, attempt, fetch, resJson]
  · intro j
    simp [submitHandler, attempt, fetch, resJson]

theorem getMessage_text (x : Json) (hx : x ≠ Json.null) :
    ∃ m, getMessage x = .ok m ∧
      (match m with
       | none => ""
       | some v => Json.elemStr v) = entryText x := by
  cases x with
  | null => exact absurd rfl hx
  | obj kvs =>
    refine ⟨Json.field "message" kvs, rfl, ?_⟩
    cases h : Json.field "message" kvs <;> simp [entryText, h]
  | bool b => exact ⟨none, rfl, rfl⟩
  | num shown => exact ⟨none, rfl, rfl⟩
  | str s => exact ⟨none, rfl, rfl⟩
  | arr xs => exact ⟨none, rfl, rfl⟩

theorem mapMessages_no_null (es : List Json) (h : Json.null ∉ es) :
    ∃ ms, mapMessages es = .ok ms ∧
      ms.map (fun m =>
        match m with
        | none => ""
        | some v => Json.elemStr v) = es.map entryText := by
  induction es with
  | nil => exact ⟨[], rfl, rfl⟩
  | cons x xs ih =>
    have hx : x ≠ Json.null := by
      intro he
      exact h (by simp [he])
    have hxs : Json.null ∉ xs := by
      intro hm
      exact h (by simp [hm])
    obtain ⟨m, hm, hmt⟩ := getMessage_text x hx
    obtain ⟨ms, hms, hmst⟩ := ih hxs
    refine ⟨m :: ms, ?_, ?_⟩
    · simp [mapMessages, hm, hms]
    · simp only [List.map_cons, hmt, hmst]

theorem mapMessages_null (es : List Json) (h : Json.null ∈ es) :
    ∃ e, mapMessages es = .error e := by
  induction es with
  | nil => simp at h
  | cons x xs ih =>
    by_cases hx : x = Json.null
    · subst hx
      exact ⟨.typeError, rfl⟩
    · have hxs : Json.null ∈ xs := by
        rcases List.mem_cons.mp h with h1 | h1
        · exact absurd h1.symm hx
        · exact h1
      obtain ⟨e, he⟩ := ih hxs
      obtain ⟨m, hm, -⟩ := getMessage_text x hx
      exact ⟨e, by simp [mapMessages, hm, he]⟩

theorem errorsList_some (body : Option Json) (es : List Json)
    (h : errorsList body = some es) :
    ∃ kvs, body = some (.obj kvs) ∧ Json.field "errors" kvs = some (.arr es) := by
  unfold errorsList at h
  split at h
  · next kvs =>
    split at h
    · next xs hf =>
      simp only [Option.some.injEq] at h
      subst h
      exact ⟨kvs, rfl, hf⟩
    · exact absurd h (by simp)
  · exact absurd h (by simp)

theorem errorText_no_null (errText : String) (body : Option Json) (es : List Json)
    (hes : errorsList body = some es) (hne : es ≠ []) (hnull : Json.null ∉ es) :
    errorText errText body = .ok (", ".intercalate (es.map entryText)) := by
  obtain ⟨kvs, rfl, hf⟩ := errorsList_some body es hes
  obtain ⟨ms, hms, hmt⟩ := mapMessages_no_null es hnull
  have hlen : es.length ≠ 0 := by simpa using hne
  simp [errorText, resJson, Json.isTruthy, getErrors, hf, lengthTruthy, hlen, mapJoin, hms,
    joinMessages, hmt]

theorem errorText_null (errText : String) (body : Option Json) (es : List Json)
    (hes : errorsList body = some es) (hnull : Json.null ∈ es) :
    ∃ e, errorText errText body = .error e := by
  obtain ⟨kvs, rfl, hf⟩ := errorsList_some body es hes
  obtain ⟨e, he⟩ := mapMessages_null es hnull
  have hlen : es.length ≠ 0 := by
    intro h0
    have : es = [] := List.length_eq_zero.mp h0
    subst this
    simp at hnull
  exact ⟨e, by simp [errorText, resJson, Json.isTruthy, getErrors, hf, lengthTruthy, hlen,
    mapJoin, he]⟩

/-- C8 (amended): a submission answered with an HTTP failure always ends
normally, with the status in `crimson` and a text that does not depend on
what the status region held before. When the body is JSON with a non-empty
errors list none of whose entries is `null`, the text is the messages of the
entries joined with `, ` in list order, an entry without message
contributing the empty text; for a list of objects with string messages that
is the messages themselves. The text is the generic failure message when the
body is not JSON, has no errors list, has an empty one, or has one with a
`null` entry. -/
theorem failure_shows_joined_messages_or_generic (body : Option Json) (st : FormState) :
    ∃ st' : FormState, submitHandler (.response false body) st = .ok st' ∧
      st'.color = "crimson" ∧
      (∀ es : List Json, errorsList body = some es → es ≠ [] → Json.null ∉ es →
        st'.textContent = ", ".intercalate (es.map entryText)) ∧
      (∀ (es : List Json) (msgs : List String), errorsList body = some es → es ≠ [] →
        List.Forall₂ isErrorEntry es msgs → st'.textContent = ", ".intercalate msgs) ∧
      ((errorsList body = none ∨ errorsList body = some [] ∨
          ∃ es, errorsList body = some es ∧ Json.null ∈ es) →
        st'.textContent = "Ошибка отправки. Попробуйте позже.") ∧
      (∀ t c : String,
        submitHandler (.response false body) { st with textContent := t, color := c } =
          .ok st') := by
  refine ⟨_, submitHandler_failure body st, rfl, ?_, ?_, ?_, ?_⟩
  · intro es hes hne hnull
    simp only [errorText_no_null _ body es hes hne hnull]
  · intro es msgs hes hne hent
    simp only [errorText_entries _ body es msgs hes hne hent]
  · intro h
    rcases h with h | h | ⟨es, hes, hnull⟩
    · rcases errorText_no_list "Ошибка отправки. Попробуйте позже." body (Or.inl h) with
        h1 | ⟨e, h1⟩
      · simp only [h1]
      · simp only [h1]
    · rcases errorText_no_list "Ошибка отправки. Попробуйте позже." body (Or.inr h) with
        h1 | ⟨e, h1⟩
      · simp only [h1]
      · simp only [h1]
    · obtain ⟨e, h1⟩ := errorText_null "Ошибка отправки. Попробуйте позже." body es hes hnull
      simp only [h1]
  · intro t c
    rw [submitHandler_failure]

/-- A run of C8 (amended): the error body of the specification with a
second entry that carries a field name. -/
theorem failure_shows_joined_messages_or_generic_witness :
    ∃ st' : FormState,
      submitHandler (.response false (some (.obj [("errors",
        .arr [.obj [("message", .str "Required")],
              .obj [("field", .str "email"), ("message", .str "Bad")]])])))
        ⟨"old", "red", ["a"], [""]⟩ = .ok st' ∧
      st'.textContent = "Required, Bad" :=
  match failure_shows_joined_messages_or_generic (some (.obj [("errors",
        .arr [.obj [("message", .str "Required")],
              .obj [("field", .str "email"), ("message", .str "Bad")]])]))
        ⟨"old", "red", ["a"], [""]⟩ with
  | ⟨st', h1, _, h3, _⟩ => ⟨st', h1, h3 _ rfl (by simp) (by simp)⟩

/-- C8 fails as stated: the body `{"errors":[{"message":"Required"},null]}`
is JSON with a non-empty errors list, so the claim gives the joined messages,
which begin with `Required`; the code shows the generic failure message. The
same holds for `{"errors":[null]}`. -/
theorem failure_with_null_entry_shows_generic :
    errorsList (some (.obj [("errors", .arr [.obj [("message", .str "Required")], .null])])) =
      some [.obj [("message", .str "Required")], .null] ∧
    specFailureText (some (.obj [("errors",
      .arr [.obj [("message", .str "Required")], .null])])) = "Required, " ∧
    submitHandler (.response false (some (.obj [("errors",
      .arr [.obj [("message", .str "Required")], .null])]))) ⟨"old", "red", ["a"], [""]⟩ =
      .ok ⟨"Ошибка отправки. Попробуйте позже.", "crimson", ["a"], [""]⟩ ∧
    specFailureText (some (.obj [("errors", .arr [.null])])) = "" ∧
    submitHandler (.response false (some (.obj [("errors", .arr [.null])])))
      ⟨"old", "red", ["a"], [""]⟩ =
      .ok ⟨"Ошибка отправки. Попробуйте позже.", "crimson", ["a"], [""]⟩ ∧
    "Required, " ≠ "Ошибка отправки. Попробуйте позже." ∧
    "" ≠ "Ошибка отправки. Попробуйте позже." := by
  refine ⟨rfl, rfl, rfl, rfl, rfl, by decide, by decide⟩

end FormModule

end Portfolio
